import Mathlib

/-!
Verification of the cancellable playout pipeline
(`src/livekit-agents/livekit/agents/voice_assistant/cancellable_source.py`).

The development shallowly embeds the pipeline:

* `AudioFrame` models `rtc.AudioFrame` (signed 16-bit PCM samples as `ℤ`,
  sample rate, channel count, samples per channel).
* `ExpFilter` is modelled from the spec (§4.1): `utils.ExpFilter` is not part
  of the sources, only its call sites are.  The spec gives
  `apply(dt, target)` the update `v ← a * v + (1 - a) * target` with per-call
  decay `a = alpha ^ dt`.  The transcendental power `alpha ^ dt` (`dt` is a
  rational `1 / windowSampleCount`) has no exact rational value, so the
  development carries an explicit power function `pw : ℚ → ℚ → ℚ` as a
  parameter of the environment; the properties the spec derives from
  `0 < alpha < 1` (the decay lies in `[0, 1]`) appear as hypotheses where a
  theorem needs them.  Concrete instances use windows of one sample, where
  `dt = 1` and `pw alpha 1 = alpha = alpha ^ 1` holds exactly for
  `pw := fun a _ => a`.
* Floating point is modelled by exact rational arithmetic `ℚ`; Python's
  `int(x)` is truncation toward zero (`pyInt`), and `len`, `//`, slicing are
  the usual list operations.
* The playout task `_playout_task` is embedded as a pure function from an
  environment (interruption schedule, sink behaviour, external cancellation,
  target volume) and a frame list to the ordered trace of its observable
  actions (predecessor hand-off, frame pulls, events, sink writes, completion
  signal).  The awaits of the task — pulling a frame, `capture_frame`, the
  hand-off — are its cooperative suspension points; the interruption flag and
  external cancellation are therefore indexed by a counter of completed
  awaits, which is exactly the granularity at which the single-threaded
  event loop can interleave other code.
* `CancellableAudioSource`'s sequential interface (`play`, `aclose`) is
  embedded as functions on an orchestrator state.
-/

namespace CancellableSource

/-- Model of `rtc.AudioFrame`: an ordered buffer of signed 16-bit PCM samples
(interleaved by channel; `data` lists the int16 values, so `len(frame.data)`
is `data.length`), a sample rate, a channel count and a samples-per-channel
count. -/
structure AudioFrame where
  data : List ℤ
  sample_rate : ℕ
  num_channels : ℕ
  samples_per_channel : ℕ
deriving Repr, DecidableEq

/-- Modelled from the spec (§3, §4.1): `utils.ExpFilter` is not under `src/`.
State of the volume envelope filter: the smoothing coefficient `alpha`
(validated in `(0,1)` at construction) and the current smoothed value
(`filtered()`, starts at `1.0`). -/
structure ExpFilter where
  alpha : ℚ
  filtered : ℚ
deriving Repr, DecidableEq

/-- Modelled from the spec (§4.1): `apply(dt, target)` advances the smoothed
value by the convex blend `a * old + (1 - a) * target` where the per-call
decay exponent is `a = alpha ^ dt`.  The power function is the explicit
parameter `pw` (see the file header). -/
def ExpFilter.apply (pw : ℚ → ℚ → ℚ) (f : ExpFilter) (dt target : ℚ) : ExpFilter :=
  { f with filtered := pw f.alpha dt * f.filtered + (1 - pw f.alpha dt) * target }

/-- The `eps = 1e-6` threshold of `_should_break`. -/
def eps : ℚ := 1 / 1000000

/-- Python's `int(x)` on a float: truncation toward zero. -/
def pyInt (x : ℚ) : ℤ := if 0 ≤ x then ⌊x⌋ else -⌊-x⌋

/-- One sample of the gain loop: `int((data[si] / 32768) * vol * 32768)`. -/
def scaleSample (x : ℤ) (vol : ℚ) : ℤ := pyInt ((x : ℚ) / 32768 * vol * 32768)

/-- `_should_break()`: `handle.interrupted and self._vol_filter.filtered() <= eps`. -/
def shouldBreak (interrupted : Bool) (f : ExpFilter) : Bool :=
  interrupted && decide (f.filtered ≤ eps)

/-- The inner sample loop of `_playout_task` on one window: for each sample in
order, advance the filter once (`vol = self._vol_filter.apply(dt, tv)`) and
scale the sample (`data[si] = int((data[si] / 32768) * vol * 32768)`).
Returns the filter state after the window together with the scaled samples. -/
def applyGainWindow (pw : ℚ → ℚ → ℚ) (f : ExpFilter) (dt tv : ℚ) :
    List ℤ → ExpFilter × List ℤ
  | [] => (f, [])
  | x :: xs =>
    let f' := ExpFilter.apply pw f dt tv
    let r := applyGainWindow pw f' dt tv xs
    (r.1, scaleSample x f'.filtered :: r.2)

/-- `n`-fold advancement of the filter with fixed `dt` and target. -/
def applyIter (pw : ℚ → ℚ → ℚ) (f : ExpFilter) (dt tv : ℚ) : ℕ → ExpFilter
  | 0 => f
  | n + 1 => ExpFilter.apply pw (applyIter pw f dt tv n) dt tv

/-- Fuelled window splitter (the fuel makes the recursion structural; it is
always called with fuel `l.length`, which suffices because every step consumes
at least one element).  A window is `min ms20 (remaining)` samples.  The
source computes `ms20 = frame.sample_rate // 100` and would raise
`ZeroDivisionError` on a nonempty frame when `ms20 = 0` (`dt = 1 / 0`); the
splitter is totalised there with windows of one sample, and every theorem
about window sizes assumes `100 ≤ sample_rate`, where the two agree. -/
def chunkWindowsF (ms20 : ℕ) : ℕ → List ℤ → List (List ℤ)
  | _, [] => []
  | 0, l => [l]
  | fuel + 1, x :: xs =>
    (x :: xs.take (ms20 - 1)) :: chunkWindowsF ms20 fuel (xs.drop (ms20 - 1))

/-- Splitting a frame's sample buffer into consecutive 20 ms windows:
the loop `while i < len(frame.data): rem = min(ms20, len(frame.data) - i);
data = frame.data[i : i + rem]; i += rem` of `_playout_task`. -/
def chunkWindows (ms20 : ℕ) (l : List ℤ) : List (List ℤ) :=
  chunkWindowsF ms20 l.length l

/-- Observable actions of one playout task, in program order. -/
inductive Act where
  /-- `old_task.cancel(); await old_task` — the hand-off barrier: the
  predecessor has fully stopped when this action completes. -/
  | cancelPred
  /-- One frame was obtained from `handle._playout_source`. -/
  | pull
  /-- `self.emit("playout_started")`. -/
  | evStarted
  /-- `self.emit("playout_stopped", cancelled)`. -/
  | evStopped (cancelled : Bool)
  /-- `await self._source.capture_frame(chunk_frame)` succeeded. -/
  | sinkWrite (fr : AudioFrame)
  /-- `handle._done_fut.set_result(None)` — the completion signal. -/
  | complete
deriving Repr, DecidableEq

def Act.isStarted : Act → Bool
  | .evStarted => true
  | _ => false

def Act.isStoppedEv : Act → Bool
  | .evStopped _ => true
  | _ => false

def Act.isWrite : Act → Bool
  | .sinkWrite _ => true
  | _ => false

def Act.isComplete : Act → Bool
  | .complete => true
  | _ => false

/-- The data carried by a sink write, if the action is one. -/
def Act.writeData : Act → Option (List ℤ)
  | .sinkWrite fr => some fr.data
  | _ => none

/-- How the window loop over one frame ended. -/
inductive LoopExit where
  /-- All windows of the frame were emitted. -/
  | normal
  /-- The break condition held at a window checkpoint (`cancelled = True; break`). -/
  | broke
  /-- `capture_frame` raised. -/
  | sinkE
  /-- The task was cancelled while awaiting `capture_frame`. -/
  | cancelledE
deriving Repr, DecidableEq

/-- How the whole task body ended. -/
inductive Outcome where
  /-- The frame loop ended without an exception (source exhausted or break). -/
  | finished
  /-- The frame sequence raised while being pulled. -/
  | srcError
  /-- The sink raised. -/
  | sinkError
  /-- The task received `CancelledError` at an await point. -/
  | cancelledTask
deriving Repr, DecidableEq

/-- Environment of one playout task run.  `intr n` is the value of
`handle.interrupted` after `n` completed awaits (the flag can only change
while the task is suspended, because the event loop is single-threaded);
`sinkOk k` tells whether the `k`-th `capture_frame` succeeds; `cancelAt`
is the await counter value at which the task, when it suspends, receives
`CancelledError` (the hand-off await suppresses it, see `playoutTask`). -/
structure Env where
  pw : ℚ → ℚ → ℚ
  targetVolume : ℚ
  intr : ℕ → Bool
  sinkOk : ℕ → Bool
  cancelAt : Option ℕ

/-- Result of the window loop over one frame. -/
structure WRes where
  /-- Actions, in order (only sink writes occur here). -/
  trace : List Act
  /-- The scaled windows, in order, including a window scaled just before a
  failed or cancelled `capture_frame` (the sample loop ran before the await). -/
  outs : List (List ℤ)
  filt : ExpFilter
  c : ℕ
  widx : ℕ
  /-- Every evaluation of `_should_break` — `(interrupted, filtered)` pairs. -/
  checks : List (Bool × ℚ)
  exit : LoopExit
deriving Repr, DecidableEq

/-- The window loop of `_playout_task` (lines 103–128): before each window
re-check the break condition; then slice, compute
`tv = self._target_volume if not handle.interrupted else 0.0` and
`dt = 1 / len(data)`, run the sample loop, build a new `AudioFrame` out of the
scaled bytes preserving `sample_rate` and `num_channels` with
`samples_per_channel = rem`, and `await self._source.capture_frame(...)`. -/
def runWindows (env : Env) (sr nch : ℕ) (filt : ExpFilter) (c widx : ℕ) :
    List (List ℤ) → WRes
  | [] => ⟨[], [], filt, c, widx, [], .normal⟩
  | w :: ws =>
    if shouldBreak (env.intr c) filt then
      ⟨[], [], filt, c, widx, [(env.intr c, filt.filtered)], .broke⟩
    else
      let tv : ℚ := if env.intr c then 0 else env.targetVolume
      let p := applyGainWindow env.pw filt (1 / (w.length : ℚ)) tv w
      if env.cancelAt = some c then
        ⟨[], [p.2], p.1, c, widx, [(env.intr c, filt.filtered)], .cancelledE⟩
      else if env.sinkOk widx then
        let r := runWindows env sr nch p.1 (c + 1) (widx + 1) ws
        ⟨Act.sinkWrite ⟨p.2, sr, nch, w.length⟩ :: r.trace, p.2 :: r.outs,
          r.filt, r.c, r.widx, (env.intr c, filt.filtered) :: r.checks, r.exit⟩
      else
        ⟨[], [p.2], p.1, c, widx, [(env.intr c, filt.filtered)], .sinkE⟩

/-- Result of the frame loop (and, via `playoutTask`, of the whole task). -/
structure RunRes where
  trace : List Act
  checks : List (Bool × ℚ)
  /-- The task's `cancelled` local at exit. -/
  cancelled : Bool
  /-- The task's `first_frame` local at exit. -/
  ff : Bool
  /-- Frames obtained from the source. -/
  pulled : ℕ
  outcome : Outcome
deriving Repr, DecidableEq

/-- The frame loop of `_playout_task` (lines 94–128): pull frames one at a
time (`async for`), emit `playout_started` on the first frame, evaluate the
break condition before processing each frame, split the frame into 20 ms
windows and run the window loop.  A mid-frame break (`LoopExit.broke`) sets
`cancelled = True` and returns to the `async for`. -/
def runFrames (env : Env) (srcFail : Bool) (filt : ExpFilter) (c widx : ℕ)
    (ff cancd : Bool) : List AudioFrame → RunRes
  | [] =>
    if env.cancelAt = some c then ⟨[], [], cancd, ff, 0, .cancelledTask⟩
    else if srcFail then ⟨[], [], cancd, ff, 0, .srcError⟩
    else ⟨[], [], cancd, ff, 0, .finished⟩
  | fr :: rest =>
    if env.cancelAt = some c then ⟨[], [], cancd, ff, 0, .cancelledTask⟩
    else
      let startEvs : List Act := if ff then [Act.evStarted] else []
      if shouldBreak (env.intr (c + 1)) filt then
        ⟨Act.pull :: startEvs, [(env.intr (c + 1), filt.filtered)], true, false, 1, .finished⟩
      else
        let wr := runWindows env fr.sample_rate fr.num_channels filt (c + 1) widx
          (chunkWindows (fr.sample_rate / 100) fr.data)
        match wr.exit with
        | .normal =>
          let r := runFrames env srcFail wr.filt wr.c wr.widx false cancd rest
          ⟨Act.pull :: (startEvs ++ wr.trace ++ r.trace),
            (env.intr (c + 1), filt.filtered) :: (wr.checks ++ r.checks),
            r.cancelled, r.ff, r.pulled + 1, r.outcome⟩
        | .broke =>
          let r := runFrames env srcFail wr.filt wr.c wr.widx false true rest
          ⟨Act.pull :: (startEvs ++ wr.trace ++ r.trace),
            (env.intr (c + 1), filt.filtered) :: (wr.checks ++ r.checks),
            r.cancelled, r.ff, r.pulled + 1, r.outcome⟩
        | .sinkE =>
          ⟨Act.pull :: (startEvs ++ wr.trace),
            (env.intr (c + 1), filt.filtered) :: wr.checks, cancd, false, 1, .sinkError⟩
        | .cancelledE =>
          ⟨Act.pull :: (startEvs ++ wr.trace),
            (env.intr (c + 1), filt.filtered) :: wr.checks, cancd, false, 1, .cancelledTask⟩

/-- The whole `_playout_task`: hand-off to the predecessor (cancel it and
await it, suppressing `CancelledError` — including, faithfully to
`contextlib.suppress`, a cancellation of the running task itself delivered
during that await), then the frame loop inside `try`, then the `finally`
block: emit `playout_stopped cancelled` if at least one frame was observed
and signal the handle's completion unconditionally. -/
def playoutTask (env : Env) (oldTask : Bool) (frames : List AudioFrame)
    (srcFail : Bool) (filt0 : ExpFilter) : RunRes :=
  let pre : List Act := if oldTask then [Act.cancelPred] else []
  let c0 : ℕ := if oldTask then 1 else 0
  let body := runFrames env srcFail filt0 c0 0 true false frames
  { body with
      trace := pre ++ body.trace ++
        (if body.ff then [] else [Act.evStopped body.cancelled]) ++ [Act.complete] }

/-- Content of `frame.data` after the window loop ran over the frame.
`rtc.AudioFrame.data` is a memoryview over the frame's buffer, so the slice
`data = frame.data[i : i + rem]` aliases the buffer and the sample loop's
`data[si] = ...` writes land in it: after the loop the buffer holds the
scaled samples of every window whose sample loop ran, followed by the
untouched remainder. -/
def frameDataAfter (env : Env) (fr : AudioFrame) (filt : ExpFilter) (c widx : ℕ) : List ℤ :=
  let wr := runWindows env fr.sample_rate fr.num_channels filt c widx
    (chunkWindows (fr.sample_rate / 100) fr.data)
  wr.outs.flatten ++ fr.data.drop wr.outs.flatten.length

/-- Model of `PlayoutHandle` as observed through its properties:
`interrupted` and the completion state of `_done_fut` (`playing` is its
negation). -/
structure PlayoutHandleM where
  interrupted : Bool
  done : Bool
deriving Repr, DecidableEq

/-- Sequential state of `CancellableAudioSource`: the closed flag and the
current playout-task slot (`none` = no task ever started, `some b` = a task
whose completion state is `b`).  The volume and filter are carried for
state-preservation statements. -/
structure CSrc where
  closed : Bool
  task : Option Bool
  target_volume : ℚ
  vol_filter : ExpFilter
deriving Repr, DecidableEq

/-- `aclose()`: return immediately if already closed; otherwise set the
closed flag and `await self._playout_atask` (in the sequential model the
await returns exactly when the task has finished). -/
def CSrc.aclose (s : CSrc) : CSrc :=
  if s.closed then s
  else { s with closed := true, task := s.task.map fun _ => true }

/-- `play()`: raise `ValueError("cancellable source is closed")` when closed;
otherwise construct a fresh handle and start a new playout task in the slot. -/
def CSrc.play (s : CSrc) : Except Unit (CSrc × PlayoutHandleM) :=
  if s.closed then .error ()
  else .ok ({ s with task := some false }, ⟨false, false⟩)

/-- The orchestrator is drained: no task is in flight. -/
def Drained (s : CSrc) : Prop := s.task = none ∨ s.task = some true

/-! Concrete instances used by witnesses and counterexamples.  They use
windows of a single sample, where `dt = 1` and the power function
`pw1 a dt = a` coincides with the exact `a ^ dt = a ^ 1 = a`. -/

/-- Power function for runs whose windows all have one sample (`dt = 1`),
where `alpha ^ dt = alpha` exactly. -/
def pw1 : ℚ → ℚ → ℚ := fun a _ => a

/-- Run with `alpha = 0.95`, `target_volume = 0.5`, never interrupted,
sink always accepting, no external cancellation. -/
def envA : Env := ⟨pw1, 1 / 2, fun _ => false, fun _ => true, none⟩

/-- One mono frame at 16-bit sample value 1, sample rate 100 Hz
(so `ms20 = 1` and every window is a single sample). -/
def frA : AudioFrame := ⟨[1], 100, 1, 1⟩

/-- Run that is interrupted from the start. -/
def envC : Env := ⟨pw1, 1, fun _ => true, fun _ => true, none⟩

/-- Run with `target_volume = 0` whose handle becomes interrupted from the
second completed await on (i.e. between the first and second window). -/
def envB : Env := ⟨pw1, 0, fun n => decide (2 ≤ n), fun _ => true, none⟩

/-- Two-window frame (sample rate 100 Hz, two samples) for the mid-frame
break scenario. -/
def frB : AudioFrame := ⟨[1, 1], 100, 1, 2⟩

/-- Second frame pulled after a mid-frame break. -/
def frB2 : AudioFrame := ⟨[5], 100, 1, 1⟩

/-! Helper lemmas. -/

theorem optNoneSome {α : Type} (x : α) : ((none : Option α) = some x) = False := by
  simp

theorem applyGainWindow_length (pw : ℚ → ℚ → ℚ) (dt tv : ℚ) :
    ∀ (w : List ℤ) (f : ExpFilter), ((applyGainWindow pw f dt tv w).2).length = w.length := by
  intro w
  induction w with
  | nil => intro f; rfl
  | cons x xs ih => intro f; simp [applyGainWindow, ih]

theorem applyIter_succ_left (pw : ℚ → ℚ → ℚ) (dt tv : ℚ) :
    ∀ (n : ℕ) (f : ExpFilter),
      applyIter pw (ExpFilter.apply pw f dt tv) dt tv n = applyIter pw f dt tv (n + 1) := by
  intro n
  induction n with
  | zero => intro f; rfl
  | succ n ih => intro f; rw [applyIter, ih f]; rfl

/-- The sample loop in closed form: the filter ends `w.length` steps ahead,
and the `k`-th output scales the `k`-th input by the filter value after
`k + 1` advancements — the filter advances exactly once per sample, in
order. -/
theorem applyGainWindow_eq_spec (pw : ℚ → ℚ → ℚ) (dt tv : ℚ) :
    ∀ (w : List ℤ) (f : ExpFilter),
      applyGainWindow pw f dt tv w =
        (applyIter pw f dt tv w.length,
         (List.range w.length).map fun k =>
           scaleSample (w.getD k 0) (applyIter pw f dt tv (k + 1)).filtered) := by
  intro w
  induction w with
  | nil => intro f; rfl
  | cons x xs ih =>
    intro f
    simp only [applyGainWindow, ih (ExpFilter.apply pw f dt tv), List.length_cons,
      List.range_succ_eq_map, List.map_cons, List.map_map, Prod.mk.injEq]
    refine ⟨?_, ?_⟩
    · rw [applyIter_succ_left]
    · refine List.cons_eq_cons.mpr ⟨rfl, ?_⟩
      apply List.map_congr_left
      intro k _
      simp [Function.comp, applyIter_succ_left]

theorem chunkWindowsF_flatten (ms20 : ℕ) :
    ∀ (fuel : ℕ) (l : List ℤ), l.length ≤ fuel →
      (chunkWindowsF ms20 fuel l).flatten = l := by
  intro fuel
  induction fuel with
  | zero =>
    intro l hl
    have : l = [] := List.eq_nil_of_length_eq_zero (Nat.le_zero.mp hl)
    subst this; rfl
  | succ fuel ih =>
    intro l hl
    cases l with
    | nil => rfl
    | cons x xs =>
      simp only [chunkWindowsF, List.flatten_cons]
      rw [ih (xs.drop (ms20 - 1)) (by simp only [List.length_drop]; simp at hl; omega)]
      simp [List.take_append_drop]

theorem chunkWindows_flatten (ms20 : ℕ) (l : List ℤ) :
    (chunkWindows ms20 l).flatten = l :=
  chunkWindowsF_flatten ms20 l.length l (Nat.le_refl _)

theorem chunkWindowsF_mem_length (ms20 : ℕ) (h1 : 1 ≤ ms20) :
    ∀ (fuel : ℕ) (l : List ℤ) (w : List ℤ), l.length ≤ fuel →
      w ∈ chunkWindowsF ms20 fuel l → 0 < w.length ∧ w.length ≤ ms20 := by
  intro fuel
  induction fuel with
  | zero =>
    intro l w hl hw
    have : l = [] := List.eq_nil_of_length_eq_zero (Nat.le_zero.mp hl)
    subst this; simp [chunkWindowsF] at hw
  | succ fuel ih =>
    intro l w hl hw
    cases l with
    | nil => simp [chunkWindowsF] at hw
    | cons x xs =>
      simp only [chunkWindowsF, List.mem_cons] at hw
      rcases hw with hw | hw
      · subst hw
        simp only [List.length_cons, List.length_take]
        omega
      · exact ih (xs.drop (ms20 - 1)) w
          (by simp only [List.length_drop]; simp at hl; omega) hw

theorem chunkWindowsF_dropLast_length (ms20 : ℕ) (h1 : 1 ≤ ms20) :
    ∀ (fuel : ℕ) (l : List ℤ) (w : List ℤ), l.length ≤ fuel →
      w ∈ (chunkWindowsF ms20 fuel l).dropLast → w.length = ms20 := by
  intro fuel
  induction fuel with
  | zero =>
    intro l w hl hw
    have : l = [] := List.eq_nil_of_length_eq_zero (Nat.le_zero.mp hl)
    subst this; simp [chunkWindowsF] at hw
  | succ fuel ih =>
    intro l w hl hw
    cases l with
    | nil => simp [chunkWindowsF] at hw
    | cons x xs =>
      simp only [chunkWindowsF] at hw
      cases hrest : chunkWindowsF ms20 fuel (xs.drop (ms20 - 1)) with
      | nil => rw [hrest] at hw; simp at hw
      | cons r rs =>
        rw [hrest, List.dropLast_cons_of_ne_nil (by simp), List.mem_cons] at hw
        have hdropne : xs.drop (ms20 - 1) ≠ [] := by
          intro hnil
          rw [hnil] at hrest
          simp [chunkWindowsF] at hrest
        have hxs : ms20 - 1 < xs.length := by
          by_contra hcon
          exact hdropne (List.drop_eq_nil_of_le (Nat.le_of_not_lt hcon))
        rcases hw with hw | hw
        · subst hw
          simp only [List.length_cons, List.length_take]
          omega
        · exact ih (xs.drop (ms20 - 1)) w
            (by simp only [List.length_drop]; simp at hl; omega) (hrest ▸ hw)

theorem runWindows_write_shape (env : Env) (sr nch : ℕ) :
    ∀ (ws : List (List ℤ)) (filt : ExpFilter) (c widx : ℕ) (a : Act),
      a ∈ (runWindows env sr nch filt c widx ws).trace →
      ∃ fr, a = Act.sinkWrite fr ∧ fr.sample_rate = sr ∧ fr.num_channels = nch ∧
        fr.samples_per_channel = fr.data.length ∧ ∃ w ∈ ws, fr.data.length = w.length := by
  intro ws
  induction ws with
  | nil => intro filt c widx a h; simp [runWindows] at h
  | cons w ws ih =>
    intro filt c widx a h
    simp only [runWindows] at h
    split at h
    · simp at h
    · split at h
      · simp at h
      · split at h
        · simp only [List.mem_cons] at h
          rcases h with h | h
          · subst h
            refine ⟨_, rfl, rfl, rfl, ?_, w, List.mem_cons_self _ _, ?_⟩
            · simp [applyGainWindow_length]
            · simp [applyGainWindow_length]
          · obtain ⟨fr, rfl, h1, h2, h3, w', hw', h4⟩ := ih _ _ _ _ h
            exact ⟨fr, rfl, h1, h2, h3, w', List.mem_cons_of_mem _ hw', h4⟩
        · simp at h

theorem runWindows_countP_zero (env : Env) (sr nch : ℕ) (ws : List (List ℤ))
    (filt : ExpFilter) (c widx : ℕ) (p : Act → Bool)
    (hp : ∀ fr, p (Act.sinkWrite fr) = false) :
    (runWindows env sr nch filt c widx ws).trace.countP p = 0 := by
  refine List.countP_eq_zero.mpr fun a ha => ?_
  obtain ⟨fr, rfl, -⟩ := runWindows_write_shape env sr nch ws filt c widx a ha
  simp [hp]

theorem runWindows_broke_state (env : Env) (sr nch : ℕ) :
    ∀ (ws : List (List ℤ)) (filt : ExpFilter) (c widx : ℕ),
      (runWindows env sr nch filt c widx ws).exit = .broke →
      env.intr (runWindows env sr nch filt c widx ws).c = true ∧
        (runWindows env sr nch filt c widx ws).filt.filtered ≤ eps := by
  intro ws
  induction ws with
  | nil => intro filt c widx h; simp [runWindows] at h
  | cons w ws ih =>
    intro filt c widx h
    by_cases hsb : shouldBreak (env.intr c) filt
    · rw [runWindows, if_pos hsb] at h ⊢
      simp only [shouldBreak, Bool.and_eq_true, decide_eq_true_eq] at hsb
      exact ⟨hsb.1, hsb.2⟩
    · by_cases hca : env.cancelAt = some c
      · rw [runWindows, if_neg hsb] at h
        simp only [hca, if_pos] at h
        simp at h
      · by_cases hsk : env.sinkOk widx
        · rw [runWindows, if_neg hsb] at h ⊢
          simp only [hca, hsk, if_neg, if_pos, if_false, if_true] at h ⊢
          exact ih _ _ _ h
        · rw [runWindows, if_neg hsb] at h
          simp only [hca, hsk, if_neg, if_false] at h
          simp at h

theorem runWindows_broke_iff_checks (env : Env) (sr nch : ℕ) :
    ∀ (ws : List (List ℤ)) (filt : ExpFilter) (c widx : ℕ),
      ((runWindows env sr nch filt c widx ws).exit = .broke ↔
        ∃ p ∈ (runWindows env sr nch filt c widx ws).checks, p.1 = true ∧ p.2 ≤ eps) := by
  intro ws
  induction ws with
  | nil => intro filt c widx; simp [runWindows]
  | cons w ws ih =>
    intro filt c widx
    simp only [runWindows]
    split
    · rename_i hsb
      simp only [shouldBreak, Bool.and_eq_true, decide_eq_true_eq] at hsb
      simp [hsb]
    · rename_i hsb
      split
      · simp only [List.mem_singleton]
        constructor
        · intro h; simp at h
        · rintro ⟨p, rfl, h1, h2⟩
          simp at h1 h2
          exact absurd (by simp [shouldBreak, h1, h2]) hsb
      · split
        · simp only [List.mem_cons]
          rw [ih]
          constructor
          · rintro ⟨p, hp, h1, h2⟩
            exact ⟨p, Or.inr hp, h1, h2⟩
          · rintro ⟨p, hp | hp, h1, h2⟩
            · subst hp
              simp at h1 h2
              exact absurd (by simp [shouldBreak, h1, h2]) hsb
            · exact ⟨p, hp, h1, h2⟩
        · simp only [List.mem_singleton]
          constructor
          · intro h; simp at h
          · rintro ⟨p, rfl, h1, h2⟩
            simp at h1 h2
            exact absurd (by simp [shouldBreak, h1, h2]) hsb

/-- With no interruption, an always-accepting sink and no cancellation, the
window loop emits every window: the sink writes carry exactly the scaled
windows, their total sample count is the frame's sample count, and the loop
ends normally. -/
theorem runWindows_full (env : Env) (sr nch : ℕ)
    (hintr : ∀ n, env.intr n = false) (hcan : env.cancelAt = none)
    (hsink : ∀ n, env.sinkOk n = true) :
    ∀ (ws : List (List ℤ)) (filt : ExpFilter) (c widx : ℕ),
      ((runWindows env sr nch filt c widx ws).trace.filterMap Act.writeData =
          (runWindows env sr nch filt c widx ws).outs) ∧
        (runWindows env sr nch filt c widx ws).outs.flatten.length = ws.flatten.length ∧
        (runWindows env sr nch filt c widx ws).exit = .normal := by
  intro ws
  induction ws with
  | nil => intro filt c widx; simp [runWindows]
  | cons w ws ih =>
    intro filt c widx
    simp only [runWindows, shouldBreak, hintr, hcan, hsink, Bool.false_and,
      Bool.false_eq_true, if_false, optNoneSome, if_true]
    obtain ⟨ih1, ih2, ih3⟩ := ih (applyGainWindow env.pw filt (1 / (w.length : ℚ))
      env.targetVolume w).1 (c + 1) (widx + 1)
    refine ⟨?_, ?_, ih3⟩
    · simp only [List.filterMap_cons, Act.writeData]
      rw [ih1]
    · simp only [List.flatten_cons, List.length_append, ih2, applyGainWindow_length]

/-! One-step unfolding lemmas for `runFrames`. -/

theorem runFrames_nil (env : Env) (sf : Bool) (filt : ExpFilter) (c widx : ℕ)
    (ff cancd : Bool) :
    runFrames env sf filt c widx ff cancd [] =
      if env.cancelAt = some c then ⟨[], [], cancd, ff, 0, .cancelledTask⟩
      else if sf then ⟨[], [], cancd, ff, 0, .srcError⟩
      else ⟨[], [], cancd, ff, 0, .finished⟩ := rfl

theorem runFrames_cons_cancel (env : Env) (sf : Bool) (filt : ExpFilter) (c widx : ℕ)
    (ff cancd : Bool) (fr : AudioFrame) (rest : List AudioFrame)
    (hca : env.cancelAt = some c) :
    runFrames env sf filt c widx ff cancd (fr :: rest) =
      ⟨[], [], cancd, ff, 0, .cancelledTask⟩ := by
  rw [runFrames, if_pos hca]

theorem runFrames_cons_break (env : Env) (sf : Bool) (filt : ExpFilter) (c widx : ℕ)
    (ff cancd : Bool) (fr : AudioFrame) (rest : List AudioFrame)
    (hca : ¬env.cancelAt = some c)
    (hsb : shouldBreak (env.intr (c + 1)) filt = true) :
    runFrames env sf filt c widx ff cancd (fr :: rest) =
      ⟨Act.pull :: (if ff then [Act.evStarted] else []),
        [(env.intr (c + 1), filt.filtered)], true, false, 1, .finished⟩ := by
  rw [runFrames, if_neg hca]
  simp [hsb]

theorem runFrames_cons_normal (env : Env) (sf : Bool) (filt : ExpFilter) (c widx : ℕ)
    (ff cancd : Bool) (fr : AudioFrame) (rest : List AudioFrame) (wr : WRes)
    (hca : ¬env.cancelAt = some c)
    (hsb : shouldBreak (env.intr (c + 1)) filt = false)
    (hw : runWindows env fr.sample_rate fr.num_channels filt (c + 1) widx
        (chunkWindows (fr.sample_rate / 100) fr.data) = wr)
    (hwe : wr.exit = .normal) :
    runFrames env sf filt c widx ff cancd (fr :: rest) =
      ⟨Act.pull :: ((if ff then [Act.evStarted] else []) ++ wr.trace ++
          (runFrames env sf wr.filt wr.c wr.widx false cancd rest).trace),
        (env.intr (c + 1), filt.filtered) ::
          (wr.checks ++ (runFrames env sf wr.filt wr.c wr.widx false cancd rest).checks),
        (runFrames env sf wr.filt wr.c wr.widx false cancd rest).cancelled,
        (runFrames env sf wr.filt wr.c wr.widx false cancd rest).ff,
        (runFrames env sf wr.filt wr.c wr.widx false cancd rest).pulled + 1,
        (runFrames env sf wr.filt wr.c wr.widx false cancd rest).outcome⟩ := by
  subst hw
  rw [runFrames, if_neg hca]
  simp [hsb, hwe]

theorem runFrames_cons_broke (env : Env) (sf : Bool) (filt : ExpFilter) (c widx : ℕ)
    (ff cancd : Bool) (fr : AudioFrame) (rest : List AudioFrame) (wr : WRes)
    (hca : ¬env.cancelAt = some c)
    (hsb : shouldBreak (env.intr (c + 1)) filt = false)
    (hw : runWindows env fr.sample_rate fr.num_channels filt (c + 1) widx
        (chunkWindows (fr.sample_rate / 100) fr.data) = wr)
    (hwe : wr.exit = .broke) :
    runFrames env sf filt c widx ff cancd (fr :: rest) =
      ⟨Act.pull :: ((if ff then [Act.evStarted] else []) ++ wr.trace ++
          (runFrames env sf wr.filt wr.c wr.widx false true rest).trace),
        (env.intr (c + 1), filt.filtered) ::
          (wr.checks ++ (runFrames env sf wr.filt wr.c wr.widx false true rest).checks),
        (runFrames env sf wr.filt wr.c wr.widx false true rest).cancelled,
        (runFrames env sf wr.filt wr.c wr.widx false true rest).ff,
        (runFrames env sf wr.filt wr.c wr.widx false true rest).pulled + 1,
        (runFrames env sf wr.filt wr.c wr.widx false true rest).outcome⟩ := by
  subst hw
  rw [runFrames, if_neg hca]
  simp [hsb, hwe]

theorem runFrames_cons_sinkE (env : Env) (sf : Bool) (filt : ExpFilter) (c widx : ℕ)
    (ff cancd : Bool) (fr : AudioFrame) (rest : List AudioFrame) (wr : WRes)
    (hca : ¬env.cancelAt = some c)
    (hsb : shouldBreak (env.intr (c + 1)) filt = false)
    (hw : runWindows env fr.sample_rate fr.num_channels filt (c + 1) widx
        (chunkWindows (fr.sample_rate / 100) fr.data) = wr)
    (hwe : wr.exit = .sinkE) :
    runFrames env sf filt c widx ff cancd (fr :: rest) =
      ⟨Act.pull :: ((if ff then [Act.evStarted] else []) ++ wr.trace),
        (env.intr (c + 1), filt.filtered) :: wr.checks, cancd, false, 1, .sinkError⟩ := by
  subst hw
  rw [runFrames, if_neg hca]
  simp [hsb, hwe]

theorem runFrames_cons_cancelledE (env : Env) (sf : Bool) (filt : ExpFilter) (c widx : ℕ)
    (ff cancd : Bool) (fr : AudioFrame) (rest : List AudioFrame) (wr : WRes)
    (hca : ¬env.cancelAt = some c)
    (hsb : shouldBreak (env.intr (c + 1)) filt = false)
    (hw : runWindows env fr.sample_rate fr.num_channels filt (c + 1) widx
        (chunkWindows (fr.sample_rate / 100) fr.data) = wr)
    (hwe : wr.exit = .cancelledE) :
    runFrames env sf filt c widx ff cancd (fr :: rest) =
      ⟨Act.pull :: ((if ff then [Act.evStarted] else []) ++ wr.trace),
        (env.intr (c + 1), filt.filtered) :: wr.checks, cancd, false, 1, .cancelledTask⟩ := by
  subst hw
  rw [runFrames, if_neg hca]
  simp [hsb, hwe]

/-! Induction lemmas for `runFrames`. -/

theorem runFrames_trace_shape (env : Env) (sf : Bool) :
    ∀ (frames : List AudioFrame) (filt : ExpFilter) (c widx : ℕ) (ff cancd : Bool) (a : Act),
      a ∈ (runFrames env sf filt c widx ff cancd frames).trace →
      a = Act.pull ∨ a = Act.evStarted ∨ ∃ fr, a = Act.sinkWrite fr := by
  intro frames
  induction frames with
  | nil =>
    intro filt c widx ff cancd a h
    rw [runFrames_nil] at h
    split at h
    · simp at h
    · split at h <;> simp at h
  | cons fr rest ih =>
    intro filt c widx ff cancd a h
    by_cases hca : env.cancelAt = some c
    · rw [runFrames_cons_cancel env sf filt c widx ff cancd fr rest hca] at h
      simp at h
    · cases hsb : shouldBreak (env.intr (c + 1)) filt with
      | true =>
        rw [runFrames_cons_break env sf filt c widx ff cancd fr rest hca hsb] at h
        simp only [List.mem_cons] at h
        rcases h with rfl | h
        · exact Or.inl rfl
        · cases ff <;> simp at h
          exact Or.inr (Or.inl h)
      | false =>
        have hwin := runWindows_write_shape env fr.sample_rate fr.num_channels
          (chunkWindows (fr.sample_rate / 100) fr.data) filt (c + 1) widx a
        cases hwe : (runWindows env fr.sample_rate fr.num_channels filt (c + 1) widx
            (chunkWindows (fr.sample_rate / 100) fr.data)).exit with
        | normal =>
          rw [runFrames_cons_normal env sf filt c widx ff cancd fr rest _ hca hsb rfl hwe] at h
          simp only [List.mem_cons, List.mem_append] at h
          rcases h with rfl | (h | h) | h
          · exact Or.inl rfl
          · cases ff <;> simp at h
            exact Or.inr (Or.inl h)
          · obtain ⟨fr', rfl, -⟩ := hwin h
            exact Or.inr (Or.inr ⟨fr', rfl⟩)
          · exact ih _ _ _ _ _ _ h
        | broke =>
          rw [runFrames_cons_broke env sf filt c widx ff cancd fr rest _ hca hsb rfl hwe] at h
          simp only [List.mem_cons, List.mem_append] at h
          rcases h with rfl | (h | h) | h
          · exact Or.inl rfl
          · cases ff <;> simp at h
            exact Or.inr (Or.inl h)
          · obtain ⟨fr', rfl, -⟩ := hwin h
            exact Or.inr (Or.inr ⟨fr', rfl⟩)
          · exact ih _ _ _ _ _ _ h
        | sinkE =>
          rw [runFrames_cons_sinkE env sf filt c widx ff cancd fr rest _ hca hsb rfl hwe] at h
          simp only [List.mem_cons, List.mem_append] at h
          rcases h with rfl | h | h
          · exact Or.inl rfl
          · cases ff <;> simp at h
            exact Or.inr (Or.inl h)
          · obtain ⟨fr', rfl, -⟩ := hwin h
            exact Or.inr (Or.inr ⟨fr', rfl⟩)
        | cancelledE =>
          rw [runFrames_cons_cancelledE env sf filt c widx ff cancd fr rest _ hca hsb rfl hwe] at h
          simp only [List.mem_cons, List.mem_append] at h
          rcases h with rfl | h | h
          · exact Or.inl rfl
          · cases ff <;> simp at h
            exact Or.inr (Or.inl h)
          · obtain ⟨fr', rfl, -⟩ := hwin h
            exact Or.inr (Or.inr ⟨fr', rfl⟩)

theorem runFrames_write_mem (env : Env) (sf : Bool) :
    ∀ (frames : List AudioFrame) (filt : ExpFilter) (c widx : ℕ) (ff cancd : Bool)
      (fr' : AudioFrame),
      Act.sinkWrite fr' ∈ (runFrames env sf filt c widx ff cancd frames).trace →
      ∃ fr ∈ frames, fr'.sample_rate = fr.sample_rate ∧ fr'.num_channels = fr.num_channels ∧
        fr'.samples_per_channel = fr'.data.length ∧
        ∃ w ∈ chunkWindows (fr.sample_rate / 100) fr.data, fr'.data.length = w.length := by
  intro frames
  induction frames with
  | nil =>
    intro filt c widx ff cancd fr' h
    rw [runFrames_nil] at h
    split at h
    · simp at h
    · split at h <;> simp at h
  | cons fr rest ih =>
    intro filt c widx ff cancd fr' h
    by_cases hca : env.cancelAt = some c
    · rw [runFrames_cons_cancel env sf filt c widx ff cancd fr rest hca] at h
      simp at h
    · cases hsb : shouldBreak (env.intr (c + 1)) filt with
      | true =>
        rw [runFrames_cons_break env sf filt c widx ff cancd fr rest hca hsb] at h
        cases ff <;> simp at h
      | false =>
        have hwin := runWindows_write_shape env fr.sample_rate fr.num_channels
          (chunkWindows (fr.sample_rate / 100) fr.data) filt (c + 1) widx (Act.sinkWrite fr')
        cases hwe : (runWindows env fr.sample_rate fr.num_channels filt (c + 1) widx
            (chunkWindows (fr.sample_rate / 100) fr.data)).exit with
        | normal =>
          rw [runFrames_cons_normal env sf filt c widx ff cancd fr rest _ hca hsb rfl hwe] at h
          simp only [List.mem_cons, List.mem_append] at h
          rcases h with h | (h | h) | h
          · simp at h
          · cases ff <;> simp at h
          · obtain ⟨fr'', heq, h1, h2, h3, w, hw, h4⟩ := hwin h
            obtain rfl : fr' = fr'' := by simpa using heq
            exact ⟨fr, List.mem_cons_self _ _, h1, h2, h3, w, hw, h4⟩
          · obtain ⟨fr0, hfr0, hrest⟩ := ih _ _ _ _ _ _ h
            exact ⟨fr0, List.mem_cons_of_mem _ hfr0, hrest⟩
        | broke =>
          rw [runFrames_cons_broke env sf filt c widx ff cancd fr rest _ hca hsb rfl hwe] at h
          simp only [List.mem_cons, List.mem_append] at h
          rcases h with h | (h | h) | h
          · simp at h
          · cases ff <;> simp at h
          · obtain ⟨fr'', heq, h1, h2, h3, w, hw, h4⟩ := hwin h
            obtain rfl : fr' = fr'' := by simpa using heq
            exact ⟨fr, List.mem_cons_self _ _, h1, h2, h3, w, hw, h4⟩
          · obtain ⟨fr0, hfr0, hrest⟩ := ih _ _ _ _ _ _ h
            exact ⟨fr0, List.mem_cons_of_mem _ hfr0, hrest⟩
        | sinkE =>
          rw [runFrames_cons_sinkE env sf filt c widx ff cancd fr rest _ hca hsb rfl hwe] at h
          simp only [List.mem_cons, List.mem_append] at h
          rcases h with h | h | h
          · simp at h
          · cases ff <;> simp at h
          · obtain ⟨fr'', heq, h1, h2, h3, w, hw, h4⟩ := hwin h
            obtain rfl : fr' = fr'' := by simpa using heq
            exact ⟨fr, List.mem_cons_self _ _, h1, h2, h3, w, hw, h4⟩
        | cancelledE =>
          rw [runFrames_cons_cancelledE env sf filt c widx ff cancd fr rest _ hca hsb rfl hwe] at h
          simp only [List.mem_cons, List.mem_append] at h
          rcases h with h | h | h
          · simp at h
          · cases ff <;> simp at h
          · obtain ⟨fr'', heq, h1, h2, h3, w, hw, h4⟩ := hwin h
            obtain rfl : fr' = fr'' := by simpa using heq
            exact ⟨fr, List.mem_cons_self _ _, h1, h2, h3, w, hw, h4⟩

theorem runFrames_countP_zero (env : Env) (sf : Bool) (p : Act → Bool)
    (hp1 : p Act.pull = false) (hp2 : p Act.evStarted = false)
    (hp3 : ∀ fr, p (Act.sinkWrite fr) = false) :
    ∀ (frames : List AudioFrame) (filt : ExpFilter) (c widx : ℕ) (ff cancd : Bool),
      (runFrames env sf filt c widx ff cancd frames).trace.countP p = 0 := by
  intro frames filt c widx ff cancd
  refine List.countP_eq_zero.mpr fun a ha => ?_
  rcases runFrames_trace_shape env sf frames filt c widx ff cancd a ha with rfl | rfl | ⟨fr, rfl⟩
  · simp [hp1]
  · simp [hp2]
  · simp [hp3]

theorem runFrames_ff_false (env : Env) (sf : Bool) :
    ∀ (frames : List AudioFrame) (filt : ExpFilter) (c widx : ℕ) (cancd : Bool),
      (runFrames env sf filt c widx false cancd frames).ff = false := by
  intro frames
  induction frames with
  | nil =>
    intro filt c widx cancd
    rw [runFrames_nil]
    split
    · rfl
    · split <;> rfl
  | cons fr rest ih =>
    intro filt c widx cancd
    by_cases hca : env.cancelAt = some c
    · rw [runFrames_cons_cancel env sf filt c widx false cancd fr rest hca]
    · cases hsb : shouldBreak (env.intr (c + 1)) filt with
      | true =>
        rw [runFrames_cons_break env sf filt c widx false cancd fr rest hca hsb]
      | false =>
        cases hwe : (runWindows env fr.sample_rate fr.num_channels filt (c + 1) widx
            (chunkWindows (fr.sample_rate / 100) fr.data)).exit with
        | normal =>
          rw [runFrames_cons_normal env sf filt c widx false cancd fr rest _ hca hsb rfl hwe]
          exact ih _ _ _ _
        | broke =>
          rw [runFrames_cons_broke env sf filt c widx false cancd fr rest _ hca hsb rfl hwe]
          exact ih _ _ _ _
        | sinkE =>
          rw [runFrames_cons_sinkE env sf filt c widx false cancd fr rest _ hca hsb rfl hwe]
        | cancelledE =>
          rw [runFrames_cons_cancelledE env sf filt c widx false cancd fr rest _ hca hsb rfl hwe]

theorem runFrames_ff_pulled (env : Env) (sf : Bool) :
    ∀ (frames : List AudioFrame) (filt : ExpFilter) (c widx : ℕ) (cancd : Bool),
      ((runFrames env sf filt c widx true cancd frames).ff = false ↔
        1 ≤ (runFrames env sf filt c widx true cancd frames).pulled) := by
  intro frames
  induction frames with
  | nil =>
    intro filt c widx cancd
    rw [runFrames_nil]
    split
    · simp
    · split <;> simp
  | cons fr rest ih =>
    intro filt c widx cancd
    by_cases hca : env.cancelAt = some c
    · rw [runFrames_cons_cancel env sf filt c widx true cancd fr rest hca]
      simp
    · cases hsb : shouldBreak (env.intr (c + 1)) filt with
      | true =>
        rw [runFrames_cons_break env sf filt c widx true cancd fr rest hca hsb]
        simp
      | false =>
        cases hwe : (runWindows env fr.sample_rate fr.num_channels filt (c + 1) widx
            (chunkWindows (fr.sample_rate / 100) fr.data)).exit with
        | normal =>
          rw [runFrames_cons_normal env sf filt c widx true cancd fr rest _ hca hsb rfl hwe]
          simp [runFrames_ff_false]
        | broke =>
          rw [runFrames_cons_broke env sf filt c widx true cancd fr rest _ hca hsb rfl hwe]
          simp [runFrames_ff_false]
        | sinkE =>
          rw [runFrames_cons_sinkE env sf filt c widx true cancd fr rest _ hca hsb rfl hwe]
          simp
        | cancelledE =>
          rw [runFrames_cons_cancelledE env sf filt c widx true cancd fr rest _ hca hsb rfl hwe]
          simp

theorem runFrames_started_count (env : Env) (sf : Bool) :
    ∀ (frames : List AudioFrame) (filt : ExpFilter) (c widx : ℕ) (ff cancd : Bool),
      (runFrames env sf filt c widx ff cancd frames).trace.countP Act.isStarted =
        if ff = true ∧ 1 ≤ (runFrames env sf filt c widx ff cancd frames).pulled
        then 1 else 0 := by
  intro frames
  induction frames with
  | nil =>
    intro filt c widx ff cancd
    rw [runFrames_nil]
    split
    · simp
    · split <;> simp
  | cons fr rest ih =>
    intro filt c widx ff cancd
    by_cases hca : env.cancelAt = some c
    · rw [runFrames_cons_cancel env sf filt c widx ff cancd fr rest hca]
      simp
    · cases hsb : shouldBreak (env.intr (c + 1)) filt with
      | true =>
        rw [runFrames_cons_break env sf filt c widx ff cancd fr rest hca hsb]
        cases ff <;> simp [Act.isStarted]
      | false =>
        have hwz := runWindows_countP_zero env fr.sample_rate fr.num_channels
          (chunkWindows (fr.sample_rate / 100) fr.data) filt (c + 1) widx Act.isStarted
          (fun fr => rfl)
        cases hwe : (runWindows env fr.sample_rate fr.num_channels filt (c + 1) widx
            (chunkWindows (fr.sample_rate / 100) fr.data)).exit with
        | normal =>
          rw [runFrames_cons_normal env sf filt c widx ff cancd fr rest _ hca hsb rfl hwe]
          have hr := ih (runWindows env fr.sample_rate fr.num_channels filt (c + 1) widx
            (chunkWindows (fr.sample_rate / 100) fr.data)).filt
            (runWindows env fr.sample_rate fr.num_channels filt (c + 1) widx
              (chunkWindows (fr.sample_rate / 100) fr.data)).c
            (runWindows env fr.sample_rate fr.num_channels filt (c + 1) widx
              (chunkWindows (fr.sample_rate / 100) fr.data)).widx false cancd
          cases ff <;>
            simp [List.countP_cons, List.countP_append, Act.isStarted, hwz, hr]
        | broke =>
          rw [runFrames_cons_broke env sf filt c widx ff cancd fr rest _ hca hsb rfl hwe]
          have hr := ih (runWindows env fr.sample_rate fr.num_channels filt (c + 1) widx
            (chunkWindows (fr.sample_rate / 100) fr.data)).filt
            (runWindows env fr.sample_rate fr.num_channels filt (c + 1) widx
              (chunkWindows (fr.sample_rate / 100) fr.data)).c
            (runWindows env fr.sample_rate fr.num_channels filt (c + 1) widx
              (chunkWindows (fr.sample_rate / 100) fr.data)).widx false true
          cases ff <;>
            simp [List.countP_cons, List.countP_append, Act.isStarted, hwz, hr]
        | sinkE =>
          rw [runFrames_cons_sinkE env sf filt c widx ff cancd fr rest _ hca hsb rfl hwe]
          cases ff <;>
            simp [List.countP_cons, List.countP_append, Act.isStarted, hwz]
        | cancelledE =>
          rw [runFrames_cons_cancelledE env sf filt c widx ff cancd fr rest _ hca hsb rfl hwe]
          cases ff <;>
            simp [List.countP_cons, List.countP_append, Act.isStarted, hwz]

theorem runFrames_cancelled_of_cancd (env : Env) (sf : Bool) :
    ∀ (frames : List AudioFrame) (filt : ExpFilter) (c widx : ℕ) (ff : Bool),
      (runFrames env sf filt c widx ff true frames).cancelled = true := by
  intro frames
  induction frames with
  | nil =>
    intro filt c widx ff
    rw [runFrames_nil]
    split
    · rfl
    · split <;> rfl
  | cons fr rest ih =>
    intro filt c widx ff
    by_cases hca : env.cancelAt = some c
    · rw [runFrames_cons_cancel env sf filt c widx ff true fr rest hca]
    · cases hsb : shouldBreak (env.intr (c + 1)) filt with
      | true =>
        rw [runFrames_cons_break env sf filt c widx ff true fr rest hca hsb]
      | false =>
        cases hwe : (runWindows env fr.sample_rate fr.num_channels filt (c + 1) widx
            (chunkWindows (fr.sample_rate / 100) fr.data)).exit with
        | normal =>
          rw [runFrames_cons_normal env sf filt c widx ff true fr rest _ hca hsb rfl hwe]
          exact ih _ _ _ _
        | broke =>
          rw [runFrames_cons_broke env sf filt c widx ff true fr rest _ hca hsb rfl hwe]
          exact ih _ _ _ _
        | sinkE =>
          rw [runFrames_cons_sinkE env sf filt c widx ff true fr rest _ hca hsb rfl hwe]
        | cancelledE =>
          rw [runFrames_cons_cancelledE env sf filt c widx ff true fr rest _ hca hsb rfl hwe]

theorem runFrames_cancelled_iff (env : Env) (sf : Bool) :
    ∀ (frames : List AudioFrame) (filt : ExpFilter) (c widx : ℕ) (ff cancd : Bool),
      ((runFrames env sf filt c widx ff cancd frames).cancelled = true ↔
        cancd = true ∨ ∃ p ∈ (runFrames env sf filt c widx ff cancd frames).checks,
          p.1 = true ∧ p.2 ≤ eps) := by
  intro frames
  induction frames with
  | nil =>
    intro filt c widx ff cancd
    rw [runFrames_nil]
    split
    · simp
    · split <;> simp
  | cons fr rest ih =>
    intro filt c widx ff cancd
    by_cases hca : env.cancelAt = some c
    · rw [runFrames_cons_cancel env sf filt c widx ff cancd fr rest hca]
      simp
    · cases hsb : shouldBreak (env.intr (c + 1)) filt with
      | true =>
        rw [runFrames_cons_break env sf filt c widx ff cancd fr rest hca hsb]
        simp only [shouldBreak, Bool.and_eq_true, decide_eq_true_eq] at hsb
        refine iff_of_true rfl (Or.inr ⟨(env.intr (c + 1), filt.filtered), ?_, hsb.1, hsb.2⟩)
        simp
      | false =>
        have hhead : ¬((env.intr (c + 1), filt.filtered).1 = true ∧
            (env.intr (c + 1), filt.filtered).2 ≤ eps) := by
          rintro ⟨h1, h2⟩
          simp only at h1 h2
          exact absurd (by simp [shouldBreak, h1, h2] :
            shouldBreak (env.intr (c + 1)) filt = true) (by simp [hsb])
        cases hwe : (runWindows env fr.sample_rate fr.num_channels filt (c + 1) widx
            (chunkWindows (fr.sample_rate / 100) fr.data)).exit with
        | normal =>
          rw [runFrames_cons_normal env sf filt c widx ff cancd fr rest _ hca hsb rfl hwe]
          have hwno : ∀ p ∈ (runWindows env fr.sample_rate fr.num_channels filt (c + 1) widx
              (chunkWindows (fr.sample_rate / 100) fr.data)).checks,
              ¬(p.1 = true ∧ p.2 ≤ eps) := by
            intro p hp hcon
            have hb := (runWindows_broke_iff_checks env fr.sample_rate fr.num_channels
              (chunkWindows (fr.sample_rate / 100) fr.data) filt (c + 1) widx).mpr
              ⟨p, hp, hcon⟩
            rw [hwe] at hb
            simp at hb
          rw [ih]
          constructor
          · rintro (h | ⟨p, hp, h1, h2⟩)
            · exact Or.inl h
            · exact Or.inr ⟨p, by simp [List.mem_cons, List.mem_append, hp], h1, h2⟩
          · rintro (h | ⟨p, hp, h1, h2⟩)
            · exact Or.inl h
            · simp only [List.mem_cons, List.mem_append] at hp
              rcases hp with rfl | hp | hp
              · exact absurd ⟨h1, h2⟩ hhead
              · exact absurd ⟨h1, h2⟩ (hwno p hp)
              · exact Or.inr ⟨p, hp, h1, h2⟩
        | broke =>
          rw [runFrames_cons_broke env sf filt c widx ff cancd fr rest _ hca hsb rfl hwe]
          obtain ⟨p, hp, h1, h2⟩ := (runWindows_broke_iff_checks env fr.sample_rate
            fr.num_channels (chunkWindows (fr.sample_rate / 100) fr.data) filt
            (c + 1) widx).mp hwe
          refine iff_of_true (runFrames_cancelled_of_cancd env sf rest _ _ _ _)
            (Or.inr ⟨p, ?_, h1, h2⟩)
          simp [List.mem_cons, List.mem_append, hp]
        | sinkE =>
          rw [runFrames_cons_sinkE env sf filt c widx ff cancd fr rest _ hca hsb rfl hwe]
          have hwno : ∀ p ∈ (runWindows env fr.sample_rate fr.num_channels filt (c + 1) widx
              (chunkWindows (fr.sample_rate / 100) fr.data)).checks,
              ¬(p.1 = true ∧ p.2 ≤ eps) := by
            intro p hp hcon
            have hb := (runWindows_broke_iff_checks env fr.sample_rate fr.num_channels
              (chunkWindows (fr.sample_rate / 100) fr.data) filt (c + 1) widx).mpr
              ⟨p, hp, hcon⟩
            rw [hwe] at hb
            simp at hb
          constructor
          · intro h
            exact Or.inl h
          · rintro (h | ⟨p, hp, h1, h2⟩)
            · exact h
            · simp only [List.mem_cons] at hp
              rcases hp with rfl | hp
              · exact absurd ⟨h1, h2⟩ hhead
              · exact absurd ⟨h1, h2⟩ (hwno p hp)
        | cancelledE =>
          rw [runFrames_cons_cancelledE env sf filt c widx ff cancd fr rest _ hca hsb rfl hwe]
          have hwno : ∀ p ∈ (runWindows env fr.sample_rate fr.num_channels filt (c + 1) widx
              (chunkWindows (fr.sample_rate / 100) fr.data)).checks,
              ¬(p.1 = true ∧ p.2 ≤ eps) := by
            intro p hp hcon
            have hb := (runWindows_broke_iff_checks env fr.sample_rate fr.num_channels
              (chunkWindows (fr.sample_rate / 100) fr.data) filt (c + 1) widx).mpr
              ⟨p, hp, hcon⟩
            rw [hwe] at hb
            simp at hb
          constructor
          · intro h
            exact Or.inl h
          · rintro (h | ⟨p, hp, h1, h2⟩)
            · exact h
            · simp only [List.mem_cons] at hp
              rcases hp with rfl | hp
              · exact absurd ⟨h1, h2⟩ hhead
              · exact absurd ⟨h1, h2⟩ (hwno p hp)

theorem runFrames_first_trace (env : Env) (sf : Bool) (frames : List AudioFrame)
    (filt : ExpFilter) (c widx : ℕ) (cancd : Bool)
    (hp : 1 ≤ (runFrames env sf filt c widx true cancd frames).pulled) :
    ∃ t, (runFrames env sf filt c widx true cancd frames).trace =
      Act.pull :: Act.evStarted :: t := by
  cases frames with
  | nil =>
    rw [runFrames_nil] at hp ⊢
    split at hp
    · simp at hp
    · split at hp <;> simp at hp
  | cons fr rest =>
    by_cases hca : env.cancelAt = some c
    · rw [runFrames_cons_cancel env sf filt c widx true cancd fr rest hca] at hp
      simp at hp
    · cases hsb : shouldBreak (env.intr (c + 1)) filt with
      | true =>
        rw [runFrames_cons_break env sf filt c widx true cancd fr rest hca hsb]
        exact ⟨[], rfl⟩
      | false =>
        generalize hW : runWindows env fr.sample_rate fr.num_channels filt (c + 1) widx
          (chunkWindows (fr.sample_rate / 100) fr.data) = wr
        cases hwe : wr.exit with
        | normal =>
          rw [runFrames_cons_normal env sf filt c widx true cancd fr rest wr hca hsb hW hwe]
          exact ⟨wr.trace ++ (runFrames env sf wr.filt wr.c wr.widx false cancd rest).trace,
            by simp⟩
        | broke =>
          rw [runFrames_cons_broke env sf filt c widx true cancd fr rest wr hca hsb hW hwe]
          exact ⟨wr.trace ++ (runFrames env sf wr.filt wr.c wr.widx false true rest).trace,
            by simp⟩
        | sinkE =>
          rw [runFrames_cons_sinkE env sf filt c widx true cancd fr rest wr hca hsb hW hwe]
          exact ⟨wr.trace, by simp⟩
        | cancelledE =>
          rw [runFrames_cons_cancelledE env sf filt c widx true cancd fr rest wr hca hsb hW hwe]
          exact ⟨wr.trace, by simp⟩

/-! Claim theorems. -/

/-- Claim C2 (confirmed): for every playout — over all environments, i.e.
all exit paths: source exhausted, break condition hit, source failure, sink
failure, cancellation by a successor — the handle's completion signal is
delivered exactly once, as the very last action of the task, so no caller
awaiting the handle can hang. -/
theorem C2_completion_always (env : Env) (old : Bool) (frames : List AudioFrame)
    (srcFail : Bool) (filt0 : ExpFilter) :
    (playoutTask env old frames srcFail filt0).trace.countP Act.isComplete = 1 ∧
    (playoutTask env old frames srcFail filt0).trace.getLast? = some Act.complete := by
  have hbody := runFrames_countP_zero env srcFail Act.isComplete rfl rfl (fun _ => rfl)
    frames filt0 (if old then 1 else 0) 0 true false
  constructor
  · simp only [playoutTask, List.countP_append]
    rw [hbody]
    cases old <;>
      cases hff : (runFrames env srcFail filt0 (if (true : Bool) then 1 else 0) 0
        true false frames).ff <;>
      simp [Act.isComplete, List.countP_cons, hff]
  · simp only [playoutTask, ← List.append_assoc]
    rw [List.getLast?_concat]

/-- Claim C3 (confirmed): a playout task handed a predecessor reference first
cancels the predecessor and waits for it to finish (the hand-off action at the
head of its trace) before any sink write: every sink write in the trace is
strictly preceded by the hand-off, so two playouts' outputs never
interleave. -/
theorem C3_handoff_before_writes (env : Env) (frames : List AudioFrame)
    (srcFail : Bool) (filt0 : ExpFilter) :
    (playoutTask env true frames srcFail filt0).trace.head? = some Act.cancelPred ∧
    ∀ (i : ℕ) (fr : AudioFrame),
      (playoutTask env true frames srcFail filt0).trace.get? i =
        some (Act.sinkWrite fr) →
      ∃ j, j < i ∧ (playoutTask env true frames srcFail filt0).trace.get? j =
        some Act.cancelPred := by
  obtain ⟨rest, htr⟩ : ∃ rest,
      (playoutTask env true frames srcFail filt0).trace = Act.cancelPred :: rest :=
    ⟨(runFrames env srcFail filt0 1 0 true false frames).trace ++
      ((if (runFrames env srcFail filt0 1 0 true false frames).ff = true then []
        else [Act.evStopped (runFrames env srcFail filt0 1 0 true false frames).cancelled]) ++
        [Act.complete]), by simp [playoutTask]⟩
  constructor
  · rw [htr]; rfl
  · intro i fr hi
    cases i with
    | zero => rw [htr] at hi; simp at hi
    | succ i => exact ⟨0, Nat.succ_pos _, by rw [htr]; rfl⟩

/-- Claim C3 witness: at a concrete environment the trace starts with the
hand-off and the sink write at position 3 is preceded by it. -/
theorem C3_handoff_before_writes_witness :
    (playoutTask envA true [frA] false ⟨19 / 20, 1⟩).trace.head? =
      some Act.cancelPred ∧
    ∃ j, j < 3 ∧ (playoutTask envA true [frA] false ⟨19 / 20, 1⟩).trace.get? j =
      some Act.cancelPred :=
  ⟨(C3_handoff_before_writes envA [frA] false ⟨19 / 20, 1⟩).1,
    (C3_handoff_before_writes envA [frA] false ⟨19 / 20, 1⟩).2 3
      ⟨[0], 100, 1, 1⟩
      (by norm_num [playoutTask, runFrames, runWindows, chunkWindows, chunkWindowsF,
        applyGainWindow, ExpFilter.apply, scaleSample, pyInt, shouldBreak, eps,
        envA, frA, pw1, optNoneSome, Int.floor_eq_iff])⟩

/-- Claim C6 (confirmed, sequential model): `aclose` is idempotent, and after
a close of a not-yet-closed orchestrator the in-flight task, if any, has
finished; by idempotence the repeated close observes the same drained
state. -/
theorem C6_aclose_idempotent_drains (s : CSrc) :
    CSrc.aclose (CSrc.aclose s) = CSrc.aclose s ∧
    (s.closed = false →
      Drained (CSrc.aclose s) ∧ Drained (CSrc.aclose (CSrc.aclose s))) := by
  constructor
  · unfold CSrc.aclose
    by_cases h : s.closed <;> simp [h]
  · intro h
    have hd : Drained (CSrc.aclose s) := by
      unfold CSrc.aclose Drained
      rw [h]
      cases s.task <;> simp
    refine ⟨hd, ?_⟩
    have hidem : CSrc.aclose (CSrc.aclose s) = CSrc.aclose s := by
      unfold CSrc.aclose
      by_cases hc : s.closed <;> simp [hc]
    rw [hidem]
    exact hd

/-- Claim C6 witness: closing an open orchestrator with a running task twice. -/
theorem C6_aclose_idempotent_drains_witness :
    CSrc.aclose (CSrc.aclose ⟨false, some false, 1, ⟨19 / 20, 1⟩⟩) =
      CSrc.aclose ⟨false, some false, 1, ⟨19 / 20, 1⟩⟩ ∧
    Drained (CSrc.aclose ⟨false, some false, 1, ⟨19 / 20, 1⟩⟩) ∧
    Drained (CSrc.aclose (CSrc.aclose ⟨false, some false, 1, ⟨19 / 20, 1⟩⟩)) :=
  ⟨(C6_aclose_idempotent_drains ⟨false, some false, 1, ⟨19 / 20, 1⟩⟩).1,
    (C6_aclose_idempotent_drains ⟨false, some false, 1, ⟨19 / 20, 1⟩⟩).2 rfl⟩

/-- Claim C7 (confirmed): `play` after `close` fails with the closed error —
returning no handle, starting no task and leaving the state unchanged (the
error branch of `play` returns nothing else) — while `play` on an open
orchestrator immediately returns a fresh handle (not interrupted, not done)
and installs a new running task, changing nothing else of the state. -/
theorem C7_play_after_close (s : CSrc) :
    CSrc.play (CSrc.aclose s) = .error () ∧
    (s.closed = false →
      CSrc.play s = .ok ({ s with task := some false }, ⟨false, false⟩)) := by
  constructor
  · unfold CSrc.play CSrc.aclose
    by_cases h : s.closed <;> simp [h]
  · intro h
    unfold CSrc.play
    simp [h]

/-- Claim C7 witness: a concrete open orchestrator. -/
theorem C7_play_after_close_witness :
    CSrc.play (CSrc.aclose ⟨false, some false, 1, ⟨19 / 20, 1⟩⟩) = .error () ∧
    CSrc.play ⟨false, some false, 1, ⟨19 / 20, 1⟩⟩ =
      .ok (⟨false, some false, 1, ⟨19 / 20, 1⟩⟩, ⟨false, false⟩) := by
  refine ⟨(C7_play_after_close ⟨false, some false, 1, ⟨19 / 20, 1⟩⟩).1, ?_⟩
  have h := (C7_play_after_close ⟨false, some false, 1, ⟨19 / 20, 1⟩⟩).2 rfl
  exact h

/-- Claim C5 (confirmed): exactly one `playout_stopped` event — carrying the
`cancelled` flag — is emitted iff at least one frame was observed, exactly one
`playout_started` is emitted iff at least one frame was observed, and when
frames were observed the two events occur in that order in the trace. -/
theorem C5_events (env : Env) (old : Bool) (frames : List AudioFrame)
    (srcFail : Bool) (filt0 : ExpFilter) :
    (playoutTask env old frames srcFail filt0).trace.countP Act.isStoppedEv =
      (if 1 ≤ (playoutTask env old frames srcFail filt0).pulled then 1 else 0) ∧
    (playoutTask env old frames srcFail filt0).trace.countP Act.isStarted =
      (if 1 ≤ (playoutTask env old frames srcFail filt0).pulled then 1 else 0) ∧
    (1 ≤ (playoutTask env old frames srcFail filt0).pulled →
      List.Sublist
        [Act.evStarted, Act.evStopped (playoutTask env old frames srcFail filt0).cancelled]
        (playoutTask env old frames srcFail filt0).trace) := by
  have hff := runFrames_ff_pulled env srcFail frames filt0 (if old = true then 1 else 0) 0 false
  have hst0 := runFrames_countP_zero env srcFail Act.isStoppedEv rfl rfl (fun _ => rfl)
    frames filt0 (if old = true then 1 else 0) 0 true false
  have hsc := runFrames_started_count env srcFail frames filt0
    (if old = true then 1 else 0) 0 true false
  have hpre : ∀ p : Act → Bool, p Act.cancelPred = false →
      List.countP p (if old = true then [Act.cancelPred] else []) = 0 := by
    intro p hp
    cases old <;> simp [List.countP_cons, hp]
  refine ⟨?_, ?_, ?_⟩
  · simp only [playoutTask, List.countP_append, hst0, hpre Act.isStoppedEv rfl]
    cases hb : (runFrames env srcFail filt0 (if old = true then 1 else 0) 0
        true false frames).ff with
    | false =>
      have hp : 1 ≤ (runFrames env srcFail filt0 (if old = true then 1 else 0) 0
          true false frames).pulled := hff.mp hb
      simp [hb, hp, Act.isStoppedEv, List.countP_cons]
    | true =>
      have hp : ¬1 ≤ (runFrames env srcFail filt0 (if old = true then 1 else 0) 0
          true false frames).pulled := fun h => by simp [hff.mpr h] at hb
      simp [hb, hp, Act.isStoppedEv, List.countP_cons]
  · simp only [playoutTask, List.countP_append, hsc, hpre Act.isStarted rfl]
    cases hb : (runFrames env srcFail filt0 (if old = true then 1 else 0) 0
        true false frames).ff with
    | false =>
      have hp : 1 ≤ (runFrames env srcFail filt0 (if old = true then 1 else 0) 0
          true false frames).pulled := hff.mp hb
      simp [hb, hp, Act.isStarted, List.countP_cons]
    | true =>
      have hp : ¬1 ≤ (runFrames env srcFail filt0 (if old = true then 1 else 0) 0
          true false frames).pulled := fun h => by simp [hff.mpr h] at hb
      simp [hb, hp, Act.isStarted, List.countP_cons]
  · intro hp
    have hp' : 1 ≤ (runFrames env srcFail filt0 (if old = true then 1 else 0) 0
        true false frames).pulled := by simpa [playoutTask] using hp
    obtain ⟨t, htr⟩ := runFrames_first_trace env srcFail frames filt0
      (if old = true then 1 else 0) 0 false hp'
    have hb : (runFrames env srcFail filt0 (if old = true then 1 else 0) 0
        true false frames).ff = false := hff.mpr hp'
    have hsub : List.Sublist
        [Act.evStarted, Act.evStopped (runFrames env srcFail filt0
          (if old = true then 1 else 0) 0 true false frames).cancelled]
        ((runFrames env srcFail filt0 (if old = true then 1 else 0) 0
          true false frames).trace ++
          ((if (runFrames env srcFail filt0 (if old = true then 1 else 0) 0
              true false frames).ff = true then []
            else [Act.evStopped (runFrames env srcFail filt0
              (if old = true then 1 else 0) 0 true false frames).cancelled]) ++
            [Act.complete])) := by
      rw [htr, hb]
      simp only [Bool.false_eq_true, if_false]
      refine List.Sublist.cons _ (List.Sublist.cons₂ _ ?_)
      refine List.Sublist.trans ?_ (List.sublist_append_right t _)
      exact List.Sublist.cons₂ _ (List.nil_sublist _)
    have hfin : List.Sublist
        [Act.evStarted, Act.evStopped (runFrames env srcFail filt0
          (if old = true then 1 else 0) 0 true false frames).cancelled]
        ((if old = true then [Act.cancelPred] else []) ++
          ((runFrames env srcFail filt0 (if old = true then 1 else 0) 0
            true false frames).trace ++
            ((if (runFrames env srcFail filt0 (if old = true then 1 else 0) 0
                true false frames).ff = true then []
              else [Act.evStopped (runFrames env srcFail filt0
                (if old = true then 1 else 0) 0 true false frames).cancelled]) ++
              [Act.complete]))) :=
      List.Sublist.trans hsub (List.sublist_append_right _ _)
    simpa [playoutTask] using hfin

/-- Claim C5 witness: one frame, never interrupted — both events fire, in
order. -/
theorem C5_events_witness :
    (playoutTask envA false [frA] false ⟨19 / 20, 1⟩).trace.countP Act.isStoppedEv =
      (if 1 ≤ (playoutTask envA false [frA] false ⟨19 / 20, 1⟩).pulled then 1 else 0) ∧
    (playoutTask envA false [frA] false ⟨19 / 20, 1⟩).trace.countP Act.isStarted =
      (if 1 ≤ (playoutTask envA false [frA] false ⟨19 / 20, 1⟩).pulled then 1 else 0) ∧
    List.Sublist
      [Act.evStarted, Act.evStopped (playoutTask envA false [frA] false ⟨19 / 20, 1⟩).cancelled]
      (playoutTask envA false [frA] false ⟨19 / 20, 1⟩).trace :=
  ⟨(C5_events envA false [frA] false ⟨19 / 20, 1⟩).1,
    (C5_events envA false [frA] false ⟨19 / 20, 1⟩).2.1,
    (C5_events envA false [frA] false ⟨19 / 20, 1⟩).2.2
      (by norm_num [playoutTask, runFrames, runWindows, chunkWindows, chunkWindowsF,
        applyGainWindow, ExpFilter.apply, scaleSample, pyInt, shouldBreak, eps,
        envA, frA, pw1, optNoneSome, Int.floor_eq_iff])⟩

/-- Claim C8 (confirmed): every frame's sample buffer is split into
consecutive windows of exactly `sample_rate / 100` samples (integer division,
as in the source's `//`), only the last window of a frame possibly shorter,
their concatenation being the buffer; and every frame emitted to the sink
preserves the sample rate and channel count of the input frame it came from,
with samples-per-channel equal to its window's length. -/
theorem C8_chunking :
    (∀ (sr : ℕ) (data : List ℤ), 100 ≤ sr →
      (chunkWindows (sr / 100) data).flatten = data ∧
      (∀ w ∈ (chunkWindows (sr / 100) data).dropLast, w.length = sr / 100) ∧
      (∀ w ∈ chunkWindows (sr / 100) data, 0 < w.length ∧ w.length ≤ sr / 100)) ∧
    (∀ (env : Env) (old : Bool) (frames : List AudioFrame) (srcFail : Bool)
        (filt0 : ExpFilter) (fr' : AudioFrame),
      Act.sinkWrite fr' ∈ (playoutTask env old frames srcFail filt0).trace →
      ∃ fr ∈ frames, fr'.sample_rate = fr.sample_rate ∧
        fr'.num_channels = fr.num_channels ∧
        fr'.samples_per_channel = fr'.data.length ∧
        ∃ w ∈ chunkWindows (fr.sample_rate / 100) fr.data,
          fr'.data.length = w.length) := by
  constructor
  · intro sr data h100
    have h1 : 1 ≤ sr / 100 := (Nat.one_le_div_iff (by norm_num)).mpr h100
    refine ⟨chunkWindows_flatten _ _, ?_, ?_⟩
    · intro w hw
      exact chunkWindowsF_dropLast_length (sr / 100) h1 data.length data w (Nat.le_refl _) hw
    · intro w hw
      exact chunkWindowsF_mem_length (sr / 100) h1 data.length data w (Nat.le_refl _) hw
  · intro env old frames srcFail filt0 fr' h
    simp only [playoutTask] at h
    rcases List.mem_append.mp h with h | h
    · rcases List.mem_append.mp h with h | h
      · rcases List.mem_append.mp h with h | h
        · cases old <;> simp at h
        · exact runFrames_write_mem env srcFail frames filt0
            (if old = true then 1 else 0) 0 true false fr' h
      · split at h <;> simp at h
    · simp at h

/-- Claim C8 witness: a three-sample buffer at `sr = 100` splits into three
one-sample windows, and the concrete emitted frame preserves rate and
channels. -/
theorem C8_chunking_witness :
    ((chunkWindows (100 / 100) [1, 2, 3]).flatten = [1, 2, 3] ∧
      (∀ w ∈ (chunkWindows (100 / 100) [1, 2, 3]).dropLast, w.length = 100 / 100) ∧
      (∀ w ∈ chunkWindows (100 / 100) [1, 2, 3], 0 < w.length ∧ w.length ≤ 100 / 100)) ∧
    ∃ fr ∈ [frA], (⟨[0], 100, 1, 1⟩ : AudioFrame).sample_rate = fr.sample_rate ∧
      (⟨[0], 100, 1, 1⟩ : AudioFrame).num_channels = fr.num_channels ∧
      (⟨[0], 100, 1, 1⟩ : AudioFrame).samples_per_channel =
        (⟨[0], 100, 1, 1⟩ : AudioFrame).data.length ∧
      ∃ w ∈ chunkWindows (fr.sample_rate / 100) fr.data,
        (⟨[0], 100, 1, 1⟩ : AudioFrame).data.length = w.length :=
  ⟨C8_chunking.1 100 [1, 2, 3] (by norm_num),
    C8_chunking.2 envA false [frA] false ⟨19 / 20, 1⟩ ⟨[0], 100, 1, 1⟩
      (by norm_num [playoutTask, runFrames, runWindows, chunkWindows, chunkWindowsF,
        applyGainWindow, ExpFilter.apply, scaleSample, pyInt, shouldBreak, eps,
        envA, frA, pw1, optNoneSome, Int.floor_eq_iff])⟩

/-- Claim C4 (confirmed): the frame loop stops early exactly when the break
condition — `interrupted` and filter output at most `eps = 1e-6` — holds at a
checkpoint: the run's `cancelled` flag is set iff some evaluation of
`_should_break` (recorded in `checks`, which logs every per-frame and
per-window evaluation) saw `interrupted = true` and a filter value `≤ eps`,
so the loop never halts early before the condition holds and halts at the
first checkpoint where it does; moreover with the handle interrupted the
filter is driven monotonically toward `0` (target `0`, decay in `[0, 1]`
keeps the value nonnegative and non-increasing). -/
theorem C4_break_condition :
    (∀ (env : Env) (old : Bool) (frames : List AudioFrame) (srcFail : Bool)
        (filt0 : ExpFilter),
      ((playoutTask env old frames srcFail filt0).cancelled = true ↔
        ∃ p ∈ (playoutTask env old frames srcFail filt0).checks,
          p.1 = true ∧ p.2 ≤ eps)) ∧
    (∀ (pw : ℚ → ℚ → ℚ) (f : ExpFilter) (dt : ℚ),
      0 ≤ pw f.alpha dt → pw f.alpha dt ≤ 1 → 0 ≤ f.filtered →
      (ExpFilter.apply pw f dt 0).filtered ≤ f.filtered ∧
        0 ≤ (ExpFilter.apply pw f dt 0).filtered) := by
  constructor
  · intro env old frames srcFail filt0
    have h := runFrames_cancelled_iff env srcFail frames filt0
      (if old = true then 1 else 0) 0 true false
    simpa [playoutTask] using h
  · intro pw f dt h0 h1 hf
    have hv : (ExpFilter.apply pw f dt 0).filtered = pw f.alpha dt * f.filtered := by
      simp [ExpFilter.apply]
    rw [hv]
    exact ⟨mul_le_of_le_one_left hf h1, mul_nonneg h0 hf⟩

/-- Claim C4 witness: an interrupted run with filter output `0` cancels (its
single recorded check saw the condition hold), and one filter step toward `0`
does not increase the output. -/
theorem C4_break_condition_witness :
    (playoutTask envC false [frA] false ⟨19 / 20, 0⟩).cancelled = true ∧
    (ExpFilter.apply pw1 ⟨19 / 20, 1⟩ 1 0).filtered ≤
      (⟨19 / 20, 1⟩ : ExpFilter).filtered := by
  constructor
  · exact (C4_break_condition.1 envC false [frA] false ⟨19 / 20, 0⟩).mpr
      ⟨(true, 0), by norm_num [playoutTask, runFrames, runWindows, chunkWindows,
        chunkWindowsF, applyGainWindow, ExpFilter.apply, scaleSample, pyInt,
        shouldBreak, eps, envC, frA, pw1, optNoneSome], rfl, by norm_num [eps]⟩
  · exact (C4_break_condition.2 pw1 ⟨19 / 20, 1⟩ 1 (by norm_num [pw1])
      (by norm_num [pw1]) (by norm_num)).1

/-- Claim C1, counterexample to the claim as stated: with `alpha = 0.95`,
`target_volume = 0.5`, no interruption and a one-sample window (so `dt = 1`
and the decay `alpha ^ dt = alpha` exactly), the filter value after its single
per-sample advancement is `0.95 * 1 + 0.05 * 0.5 = 39/40`, and the task emits
the sample `int((1 / 32768) * (39/40) * 32768) = int(0.975) = 0` — Python's
`int()` truncates toward zero — whereas the claim's
`round(sample * filterValue) = round(0.975) = 1`. -/
theorem C1_counterexample :
    (playoutTask envA false [frA] false ⟨19 / 20, 1⟩).trace =
      [Act.pull, Act.evStarted, Act.sinkWrite ⟨[0], 100, 1, 1⟩,
        Act.evStopped false, Act.complete] ∧
    round (((1 : ℚ) / 32768) * ((19 / 20) * 1 + (1 - 19 / 20) * (1 / 2)) * 32768) = 1 ∧
    (0 : ℤ) ≠ 1 := by
  refine ⟨?_, by norm_num [round_eq, Int.floor_eq_iff], by decide⟩
  norm_num [playoutTask, runFrames, runWindows, chunkWindows, chunkWindowsF,
    applyGainWindow, ExpFilter.apply, scaleSample, pyInt, shouldBreak, eps,
    envA, frA, pw1, optNoneSome, Int.floor_eq_iff]

/-- Claim C1 as amended (proved): for every window processed by the playout
task — one not stopped by the break condition, external cancellation or a
sink failure — the target gain passed to the filter is `0` if the handle is
interrupted and otherwise the orchestrator's target volume, `dt` is
`1 / windowSampleCount`, the filter is advanced exactly once per sample in
order (the `k`-th output uses the filter value after `k + 1` advancements),
and each output sample is the truncation toward zero (Python `int`, not
`round`) of `(sample / 32768) * filterValue * 32768`. -/
theorem C1_window_gain (env : Env) (sr nch : ℕ) (filt : ExpFilter) (c widx : ℕ)
    (w : List ℤ) (ws : List (List ℤ))
    (hnb : shouldBreak (env.intr c) filt = false)
    (hnc : ¬env.cancelAt = some c) (hsk : env.sinkOk widx = true) :
    (runWindows env sr nch filt c widx (w :: ws)).trace =
      Act.sinkWrite ⟨(List.range w.length).map (fun k =>
          scaleSample (w.getD k 0)
            (applyIter env.pw filt (1 / (w.length : ℚ))
              (if env.intr c then 0 else env.targetVolume) (k + 1)).filtered),
        sr, nch, w.length⟩ ::
      (runWindows env sr nch
        (applyIter env.pw filt (1 / (w.length : ℚ))
          (if env.intr c then 0 else env.targetVolume) w.length)
        (c + 1) (widx + 1) ws).trace := by
  rw [runWindows]
  simp only [hnb, Bool.false_eq_true, if_false, hnc, hsk, if_true,
    applyGainWindow_eq_spec]

/-- Claim C1 witness: the amended statement at the concrete one-sample window
of `C1_counterexample`. -/
theorem C1_window_gain_witness :
    (runWindows envA 100 1 ⟨19 / 20, 1⟩ 1 0 [[1]]).trace =
      Act.sinkWrite ⟨(List.range (1 : ℕ)).map (fun k =>
          scaleSample ([(1 : ℤ)].getD k 0)
            (applyIter envA.pw ⟨19 / 20, 1⟩ (1 / (([(1 : ℤ)].length : ℚ)))
              (if envA.intr 1 then 0 else envA.targetVolume) (k + 1)).filtered),
        100, 1, 1⟩ ::
      (runWindows envA 100 1
        (applyIter envA.pw ⟨19 / 20, 1⟩ (1 / (([(1 : ℤ)].length : ℚ)))
          (if envA.intr 1 then 0 else envA.targetVolume) [(1 : ℤ)].length)
        2 1 []).trace := by
  have h := C1_window_gain envA 100 1 ⟨19 / 20, 1⟩ 1 0 [1] []
    (by simp [envA, shouldBreak]) (by simp [envA]) (by simp [envA])
  simpa using h

/-- Claim C9, counterexample to the claim as stated: `rtc.AudioFrame.data` is
a memoryview over the frame's buffer, so the window slice
`data = frame.data[i : i + rem]` aliases the buffer and the sample loop's
`data[si] = int(...)` writes land in the received frame.  After processing
the one-sample frame `[1]` with target volume `0.5` and `alpha = 0.95`
(filter value `39/40`, scaled sample `int(0.975) = 0`), the frame's buffer
holds `[0]`, not its original `[1]`: the gain loop does mutate the received
frame's sample buffer in place. -/
theorem C9_counterexample :
    frameDataAfter envA frA ⟨19 / 20, 1⟩ 0 0 ≠ frA.data := by
  norm_num [frameDataAfter, runWindows, chunkWindows, chunkWindowsF,
    applyGainWindow, ExpFilter.apply, scaleSample, pyInt, shouldBreak, eps,
    envA, frA, pw1, optNoneSome, Int.floor_eq_iff]

/-- Claim C9 as amended (proved): the gain loop writes the scaled samples
back into the received frame's buffer in place (the slice is a memoryview of
it); the frames handed to the sink are new `AudioFrame` values whose data are
copies of those scaled windows — on a fully processed frame (no interruption,
accepting sink, no cancellation) the frame's buffer afterwards is exactly the
concatenation of the emitted frames' data, a full rewrite of the same
length.  The received frame object itself is never handed onward. -/
theorem C9_inplace_gain (env : Env) (fr : AudioFrame) (filt : ExpFilter) (c widx : ℕ)
    (hintr : ∀ n, env.intr n = false) (hcan : env.cancelAt = none)
    (hsink : ∀ n, env.sinkOk n = true) :
    frameDataAfter env fr filt c widx =
      ((runWindows env fr.sample_rate fr.num_channels filt c widx
        (chunkWindows (fr.sample_rate / 100) fr.data)).trace.filterMap
          Act.writeData).flatten ∧
    (frameDataAfter env fr filt c widx).length = fr.data.length := by
  obtain ⟨h1, h2, -⟩ := runWindows_full env fr.sample_rate fr.num_channels hintr hcan hsink
    (chunkWindows (fr.sample_rate / 100) fr.data) filt c widx
  rw [chunkWindows_flatten] at h2
  constructor
  · simp [frameDataAfter, h1, h2, List.drop_length]
  · simp [frameDataAfter, h2, List.length_append, List.length_drop]

/-- Claim C9 witness: the amended statement at the concrete frame of
`C9_counterexample`. -/
theorem C9_inplace_gain_witness :
    frameDataAfter envA frA ⟨19 / 20, 1⟩ 0 0 =
      ((runWindows envA frA.sample_rate frA.num_channels ⟨19 / 20, 1⟩ 0 0
        (chunkWindows (frA.sample_rate / 100) frA.data)).trace.filterMap
          Act.writeData).flatten ∧
    (frameDataAfter envA frA ⟨19 / 20, 1⟩ 0 0).length = frA.data.length :=
  C9_inplace_gain envA frA ⟨19 / 20, 1⟩ 0 0 (fun _ => rfl) rfl (fun _ => rfl)

/-- Claim C10 (confirmed): when the break condition first becomes true inside
a frame's window loop (the window loop exits with `broke` on a frame whose
per-frame check had passed), the task still pulls exactly one more frame from
the source — the `async for` resumes — and, the interruption flag being
monotone, the per-frame check then terminates the frame loop: exactly two
frames are pulled in total from the breaking frame on, the playout ends
cancelled with a normal (non-error) outcome, and no further sink write
happens after the mid-frame break. -/
theorem C10_deferred_stop (env : Env) (sf : Bool) (filt : ExpFilter) (c widx : ℕ)
    (fr f2 : AudioFrame) (rest : List AudioFrame) (ff cancd : Bool) (wr : WRes)
    (hmono : ∀ i j : ℕ, i ≤ j → env.intr i = true → env.intr j = true)
    (hnc1 : ¬env.cancelAt = some c)
    (hnb : shouldBreak (env.intr (c + 1)) filt = false)
    (hw : runWindows env fr.sample_rate fr.num_channels filt (c + 1) widx
        (chunkWindows (fr.sample_rate / 100) fr.data) = wr)
    (hbroke : wr.exit = .broke)
    (hnc2 : ¬env.cancelAt = some wr.c) :
    (runFrames env sf filt c widx ff cancd (fr :: f2 :: rest)).pulled = 2 ∧
    (runFrames env sf filt c widx ff cancd (fr :: f2 :: rest)).cancelled = true ∧
    (runFrames env sf filt c widx ff cancd (fr :: f2 :: rest)).outcome = .finished ∧
    (runFrames env sf filt c widx ff cancd (fr :: f2 :: rest)).trace.countP Act.isWrite =
      wr.trace.countP Act.isWrite := by
  have hst := runWindows_broke_state env fr.sample_rate fr.num_channels
    (chunkWindows (fr.sample_rate / 100) fr.data) filt (c + 1) widx
  rw [hw] at hst
  obtain ⟨hi, hf⟩ := hst hbroke
  have hsb2 : shouldBreak (env.intr (wr.c + 1)) wr.filt = true := by
    have hi2 : env.intr (wr.c + 1) = true := hmono wr.c (wr.c + 1) (Nat.le_succ _) hi
    simp [shouldBreak, hi2, hf]
  rw [runFrames_cons_broke env sf filt c widx ff cancd fr (f2 :: rest) wr hnc1 hnb hw hbroke,
    runFrames_cons_break env sf wr.filt wr.c wr.widx false true f2 rest hnc2 hsb2]
  refine ⟨rfl, rfl, rfl, ?_⟩
  cases ff <;>
    simp [List.countP_cons, List.countP_append, Act.isWrite]

/-- Claim C10 witness: interruption arrives between the two windows of a
two-window frame while the filter output is already below `eps`; the task
emits the first window, breaks at the second, pulls exactly one more frame
and stops without writing it. -/
theorem C10_deferred_stop_witness :
    (runFrames envB false ⟨1 / 2, 3 / 2000000⟩ 0 0 true false [frB, frB2]).pulled = 2 ∧
    (runFrames envB false ⟨1 / 2, 3 / 2000000⟩ 0 0 true false [frB, frB2]).cancelled = true ∧
    (runFrames envB false ⟨1 / 2, 3 / 2000000⟩ 0 0 true false [frB, frB2]).outcome =
      .finished ∧
    (runFrames envB false ⟨1 / 2, 3 / 2000000⟩ 0 0 true false [frB, frB2]).trace.countP
        Act.isWrite =
      (runWindows envB frB.sample_rate frB.num_channels ⟨1 / 2, 3 / 2000000⟩ (0 + 1) 0
        (chunkWindows (frB.sample_rate / 100) frB.data)).trace.countP Act.isWrite :=
  C10_deferred_stop envB false ⟨1 / 2, 3 / 2000000⟩ 0 0 frB frB2 [] true false
    (runWindows envB frB.sample_rate frB.num_channels ⟨1 / 2, 3 / 2000000⟩ (0 + 1) 0
      (chunkWindows (frB.sample_rate / 100) frB.data))
    (by intro i j hij hi; simp [envB] at hi ⊢; omega)
    (by simp [envB])
    (by simp [envB, shouldBreak])
    rfl
    (by norm_num [runWindows, chunkWindows, chunkWindowsF, applyGainWindow,
      ExpFilter.apply, scaleSample, pyInt, shouldBreak, eps, envB, frB, pw1,
      optNoneSome, Int.floor_eq_iff])
    (by norm_num [runWindows, chunkWindows, chunkWindowsF, applyGainWindow,
      ExpFilter.apply, scaleSample, pyInt, shouldBreak, eps, envB, frB, pw1,
      optNoneSome, Int.floor_eq_iff])

end CancellableSource
